import Mathlib

/-!
Verification of the popularity-debiasing recommender core
(`baselines/abstract_recommender.py` and `baselines/sasrecn.py`).

Embedding conventions:
* Python integers are `ℕ`/`ℤ`; Python float arithmetic is idealised as exact
  arithmetic over `ℚ` (for ratio formulas) and `ℝ` (for `math.log` and the
  tensor score computations).
* Python's built-in `round` rounds half to even; `pyRound` below implements
  exactly that rule.
* `np.argsort` and `list.sort` are modelled by `List.insertionSort` with the
  tie-breaking-by-index order, i.e. as stable ascending sorts.
* Fallible operations (`ZeroDivisionError`, `raise NotImplementedError`) are
  modelled with `Option` / `Except`.
* `mid_i` is passed as a natural-number parameter; in the source it equals
  `int(len(bias_bak) * self.b_ratio)`.
* Tensors are functions out of `Fin`; a batch of hidden states is
  `Fin B → Fin d → ℝ`, the item-embedding table is `Fin n → Fin d → ℝ`.
-/

/-- Round-half-to-even, the rounding rule of Python's built-in `round`. -/
def pyRound {α : Type*} [LinearOrderedField α] [FloorRing α] (x : α) : ℤ :=
  if x - (⌊x⌋ : α) < 1 / 2 then ⌊x⌋
  else if (1 : α) / 2 < x - (⌊x⌋ : α) then ⌊x⌋ + 1
  else if ⌊x⌋ % 2 = 0 then ⌊x⌋ else ⌊x⌋ + 1

/-- The clamped per-item counts built at the top of `cal_popular` (and of
`calcualte_bias_label`): `label.append(max(self.item_cnt[item_k], 1))` for
`item_k in range(self.n_items)`. -/
def clampedCounts (n : ℕ) (item_cnt : ℕ → ℕ) : List ℕ :=
  (List.range n).map fun item_k => max (item_cnt item_k) 1

/-- `max(label)` over a Python list (the source only evaluates it on
non-empty lists, where it agrees with this fold). -/
def max_pop (l : List ℕ) : ℕ := l.foldr max 0

/-- Ascending comparison of list entries, ties broken by index: the total
order realising a stable ascending sort of values, used to model
`np.argsort`. -/
def keyLe (l : List ℕ) (i j : ℕ) : Prop :=
  l.getD i 0 < l.getD j 0 ∨ (l.getD i 0 = l.getD j 0 ∧ i ≤ j)

instance keyLeDec (l : List ℕ) : DecidableRel (keyLe l) := fun i j =>
  show Decidable (l.getD i 0 < l.getD j 0 ∨ (l.getD i 0 = l.getD j 0 ∧ i ≤ j))
    from inferInstance

/-- `np.argsort(label)`: the list of indices of `label` arranged so that the
corresponding values are ascending (stably). -/
def argsort (l : List ℕ) : List ℕ :=
  List.insertionSort (keyLe l) (List.range l.length)

/-- `SequentialRecommender.cal_popular`: builds the clamped counts, takes
their maximum and argsort, and emits one integer label per item.  The source
computes `nv = round(math.log(v))` and then overwrites `nv` when the strategy
is `avg` or `arg`; the value produced is the one written here. -/
noncomputable def cal_popular_label (label_strategy : String) (label_count : ℕ)
    (n_items : ℕ) (item_cnt : ℕ → ℕ) : List ℤ :=
  let label := clampedCounts n_items item_cnt
  let maxPop := max_pop label
  let lidx := argsort label
  (List.range n_items).map fun i =>
    let v := label.getD i 0
    if label_strategy = "avg" then pyRound ((label_count * v : ℚ) / maxPop)
    else if label_strategy = "arg" then
      pyRound ((label_count * lidx.getD i 0 : ℚ) / lidx.length)
    else pyRound (Real.log v)

/-- The label formula the specification ascribes to the `arg` strategy:
`round(bucket_count * rank(i) / num_items)` where `rank(i)` is item `i`'s
0-based position when the clamped counts are sorted ascending.  (Stated from
the specification's words, to be compared with `cal_popular_label`.) -/
def spec_arg_label (label_count : ℕ) (n_items : ℕ) (item_cnt : ℕ → ℕ) : List ℤ :=
  let label := clampedCounts n_items item_cnt
  (List.range n_items).map fun i =>
    pyRound ((label_count * (argsort label).indexOf i : ℚ) / n_items)

/-- `bias_bak = bias[:]; bias_bak.sort()` — the clamped counts sorted
ascending. -/
def bias_sorted (n_items : ℕ) (item_cnt : ℕ → ℕ) : List ℕ :=
  List.insertionSort (· ≤ ·) (clampedCounts n_items item_cnt)

/-- `bias_line = bias_bak[-mid_i]`.  Python's negative indexing sends `-k`
to `len - k` for `0 < k ≤ len` and `-0` to `0`; both cases are captured by
the index `(len - mid_i) % len`. -/
def bias_line (n_items : ℕ) (item_cnt : ℕ → ℕ) (mid_i : ℕ) : ℕ :=
  (bias_sorted n_items item_cnt).getD ((n_items - mid_i) % n_items) 0

/-- `nobias_line = bias_bak[mid_i]`. -/
def nobias_line (n_items : ℕ) (item_cnt : ℕ → ℕ) (mid_i : ℕ) : ℕ :=
  (bias_sorted n_items item_cnt).getD mid_i 0

/-- The `for i, v in enumerate(bias)` loop of `calcualte_bias_label`,
carrying the `nobias_cnt` counter; produces the `(index, label)` pairs that
the source pushes onto `bias_idx` / `bias_label`. -/
def biasLoop (bl nl mid_i : ℕ) : List (ℕ × ℕ) → ℕ → List (ℕ × ℤ)
  | [], _ => []
  | p :: rest, nobias_cnt =>
    if bl ≤ p.2 then (p.1, 1) :: biasLoop bl nl mid_i rest nobias_cnt
    else if p.2 ≤ nl then
      if mid_i < nobias_cnt then biasLoop bl nl mid_i rest nobias_cnt
      else (p.1, 0) :: biasLoop bl nl mid_i rest (nobias_cnt + 1)
    else biasLoop bl nl mid_i rest nobias_cnt

/-- `SequentialRecommender.calcualte_bias_label` (name as in the source):
the list of `(bias_idx, bias_label)` pairs produced by the enumeration loop.
`enumerate(bias)` pairs each index `i < n_items` with `bias[i] =
max(item_cnt[i], 1)`. -/
def calcualte_bias_label (n_items : ℕ) (item_cnt : ℕ → ℕ) (mid_i : ℕ) :
    List (ℕ × ℤ) :=
  biasLoop (bias_line n_items item_cnt mid_i) (nobias_line n_items item_cnt mid_i)
    mid_i ((List.range n_items).map fun i => (i, max (item_cnt i) 1)) 0

/-- `sigmoid(x) = 1 / (1 + exp(-x))`, as computed by `torch.nn.Sigmoid`. -/
noncomputable def sigmoid (x : ℝ) : ℝ := 1 / (1 + Real.exp (-x))

/-- Dot product of two `d`-dimensional real vectors. -/
noncomputable def dotProduct {d : ℕ} (x y : Fin d → ℝ) : ℝ := ∑ k, x k * y k

/-- The learned parameters of `SASRecN` that enter the debiasing adjustment:
the item-embedding table, the two scalar-output linear layers `fc_user` and
`fc_item` (weight vector and bias each), and the configured offset
`self.c = config['biasc']`. -/
structure SASRecNParams (d n : ℕ) where
  item_embedding : Fin n → Fin d → ℝ
  fc_user_w : Fin d → ℝ
  fc_user_b : ℝ
  fc_item_w : Fin d → ℝ
  fc_item_b : ℝ
  c : ℝ

/-- `self.fc_user(h)` for a hidden vector `h` (a `Linear(hidden_size, 1)`). -/
noncomputable def fc_user {d n : ℕ} (M : SASRecNParams d n) (h : Fin d → ℝ) : ℝ :=
  dotProduct M.fc_user_w h + M.fc_user_b

/-- `self.fc_item(e)` for an embedding vector `e`. -/
noncomputable def fc_item {d n : ℕ} (M : SASRecNParams d n) (e : Fin d → ℝ) : ℝ :=
  dotProduct M.fc_item_w e + M.fc_item_b

/-- `user_score = Sigmoid()(self.fc_user(seq_output))`, per query `q`. -/
noncomputable def user_score {d n B : ℕ} (M : SASRecNParams d n)
    (seq_output : Fin B → Fin d → ℝ) (q : Fin B) : ℝ :=
  sigmoid (fc_user M (seq_output q))

/-- `item_scores = Sigmoid()(self.fc_item(test_items_emb))`, per item `i`
of the catalog. -/
noncomputable def item_score {d n : ℕ} (M : SASRecNParams d n) (i : Fin n) : ℝ :=
  sigmoid (fc_item M (M.item_embedding i))

/-- The raw full-catalog score matrix
`torch.matmul(seq_output, test_items_emb.transpose(0, 1))`. -/
noncomputable def full_sort_raw {d n B : ℕ} (M : SASRecNParams d n)
    (seq_output : Fin B → Fin d → ℝ) (q : Fin B) (i : Fin n) : ℝ :=
  dotProduct (seq_output q) (M.item_embedding i)

/-- The score matrix returned by `full_sort_predict`:
`scores * user_score * item_scores - self.c * user_score * item_scores`
applied to the raw matmul scores ([B,1] against [1,n] broadcast). -/
noncomputable def full_sort_predict_scores {d n B : ℕ} (M : SASRecNParams d n)
    (seq_output : Fin B → Fin d → ℝ) (q : Fin B) (i : Fin n) : ℝ :=
  full_sort_raw M seq_output q i * user_score M seq_output q * item_score M i
    - M.c * user_score M seq_output q * item_score M i

/-- The logits used by the cross-entropy branch of `calculate_loss`:
`logits = torch.matmul(seq_output, test_item_emb.transpose(0, 1))` followed by
`logits = logits * user_score * item_scores - self.c * user_score * item_scores`. -/
noncomputable def ce_logits {d n B : ℕ} (M : SASRecNParams d n)
    (seq_output : Fin B → Fin d → ℝ) (q : Fin B) (i : Fin n) : ℝ :=
  dotProduct (seq_output q) (M.item_embedding i) * user_score M seq_output q
      * item_score M i
    - M.c * user_score M seq_output q * item_score M i

/-- The raw pairwise scores of `predict`:
`scores = torch.mul(seq_output, test_item_emb).sum(dim=1)`, one per batch
position `j`, against that position's supplied target item `target j`. -/
noncomputable def predict_raw {d n B : ℕ} (M : SASRecNParams d n)
    (seq_output : Fin B → Fin d → ℝ) (target : Fin B → Fin n) (j : Fin B) : ℝ :=
  dotProduct (seq_output j) (M.item_embedding (target j))

/-- The tensor returned by `predict`.  Because `scores` has shape `[B]`,
`user_score` shape `[B,1]` and `item_scores` shape `[1,B]`, the expression
`scores * user_score * item_scores - self.c * user_score * item_scores`
broadcasts to a `[B,B]` tensor whose `(q, j)` entry combines row `q`'s user
score with column `j`'s raw pairwise score and target-item score. -/
noncomputable def predict_scores {d n B : ℕ} (M : SASRecNParams d n)
    (seq_output : Fin B → Fin d → ℝ) (target : Fin B → Fin n) (q j : Fin B) : ℝ :=
  predict_raw M seq_output target j * user_score M seq_output q
      * item_score M (target j)
    - M.c * user_score M seq_output q * item_score M (target j)

/-- The adjustment formula as written in the specification:
`adjusted = raw * u * it - c * u * it`. -/
def adjusted_score_spec (raw u it c : ℝ) : ℝ := raw * u * it - c * u * it

/-- The two supported loss functions of `SASRecN`. -/
inductive LossFct where
  | bpr : LossFct
  | ce : LossFct
deriving DecidableEq

/-- The loss-type dispatch in `SASRecN.__init__`: `BPRLoss()` for `"BPR"`,
`nn.CrossEntropyLoss()` for `"CE"`, otherwise `raise NotImplementedError`. -/
def selectLossFct (loss_type : String) : Except String LossFct :=
  if loss_type = "BPR" then Except.ok LossFct.bpr
  else if loss_type = "CE" then Except.ok LossFct.ce
  else Except.error "Make sure loss_type is BPR or CE!"

/-- The state `SASRecN.__init__` establishes after the loss dispatch: the
selected loss function and the empty `self.pop_label` accumulator.  The
`raise` aborts construction, so no instance is produced for other strings. -/
structure SASRecNInit where
  loss_fct : LossFct
  pop_label : List ℤ
deriving DecidableEq

/-- `SASRecN.__init__` restricted to the loss dispatch and the accumulator
initialisation (`self.pop_label = []`). -/
def init_sasrecn (loss_type : String) : Except String SASRecNInit :=
  match selectLossFct loss_type with
  | Except.ok l => Except.ok ⟨l, []⟩
  | Except.error e => Except.error e

/-- Descending comparison of scores with ties broken by index: the order in
which `torch.topk` lists the largest entries of a score row. -/
def topkRel {n : ℕ} (scores : Fin n → ℚ) (i j : Fin n) : Prop :=
  scores j < scores i ∨ (scores i = scores j ∧ i ≤ j)

instance topkRelDec {n : ℕ} (scores : Fin n → ℚ) : DecidableRel (topkRel scores) :=
  fun i j =>
    show Decidable (scores j < scores i ∨ (scores i = scores j ∧ i ≤ j))
      from inferInstance

/-- `scores.topk(10)[1]` for one row: the indices of the ten largest scores,
in descending score order. -/
def topk_indices {n : ℕ} (scores : Fin n → ℚ) : List (Fin n) :=
  (List.insertionSort (topkRel scores) (List.finRange n)).take 10

/-- The inner loop of `full_sort_predict`: `mypop = sum(self.label[j] for j
in the top-10 indices)` of one query's score row. -/
def mypop {n : ℕ} (label : List ℤ) (scores : Fin n → ℚ) : ℤ :=
  ((topk_indices scores).map fun j => label.getD j.val 0).sum

/-- The mutable per-model state touched by the operations below:
`self.label` (popularity labels) and `self.pop_label` (the running
accumulator). -/
structure ModelState where
  label : List ℤ
  pop_label : List ℤ
deriving DecidableEq

/-- The operations a constructed `SASRecN` model exposes, with the data each
needs.  `fullSortPredict` carries the per-query score rows it was called on
(scores are idealised as rationals). -/
inductive ModelOp where
  | calculateLoss : ModelOp
  | predictOp : ModelOp
  | fullSortPredict (n B : ℕ) (scores : Fin B → Fin n → ℚ) : ModelOp
  | calCurrPopOp : ModelOp
  | calPopularOp (strat : String) (lcnt n : ℕ) (cnt : ℕ → ℕ) : ModelOp

/-- Effect of each operation on the model state.  Only `full_sort_predict`
touches `self.pop_label` (it appends one `mypop` entry per query of the
batch); `cal_popular` rebuilds `self.label`; the remaining operations leave
both lists unchanged. -/
noncomputable def applyOp : ModelOp → ModelState → ModelState
  | ModelOp.fullSortPredict _ B scores, st =>
      ⟨st.label, st.pop_label ++ List.ofFn fun q : Fin B => mypop st.label (scores q)⟩
  | ModelOp.calPopularOp strat lcnt n cnt, st =>
      ⟨cal_popular_label strat lcnt n cnt, st.pop_label⟩
  | _, st => st

/-- `SASRecN.cal_curr_pop`: computes
`sum(self.pop_label) / 10 / len(self.pop_label)`.  The division raises
`ZeroDivisionError` when `pop_label` is empty, and the subsequent
`max(self.label)` raises on an empty label list; both failures are `none`. -/
def cal_curr_pop (label : List ℤ) (pop_label : List ℤ) : Option ℚ :=
  if pop_label.length = 0 then none
  else if label.length = 0 then none
  else some ((pop_label.sum : ℚ) / 10 / (pop_label.length : ℚ))

/-- Concrete counts `[5, 1, 10, 2]` from the specification's `log` scenario. -/
def logScenarioCnt : ℕ → ℕ := fun k => [5, 1, 10, 2].getD k 0

/-- Concrete counts `[1, 2, 3, 4, 5]` from the specification's bias-partition
scenario. -/
def biasScenarioCnt : ℕ → ℕ := fun k => [1, 2, 3, 4, 5].getD k 0

/-- Concrete counts `[3, 1, 2]` used to separate argsort from rank. -/
def argScenarioCnt : ℕ → ℕ := fun k => [3, 1, 2].getD k 0

/-- Concrete counts `[30, 10, 20]`: same relative order as `[3, 1, 2]`. -/
def argScenarioCnt2 : ℕ → ℕ := fun k => [30, 10, 20].getD k 0

/-- Concrete counts `[1, 2, 3]` used to exercise the `avg` strategy. -/
def avgScenarioCnt : ℕ → ℕ := fun k => [1, 2, 3].getD k 0

/-- Concrete counts `[7, 9]` used to exercise the `mid_i = 0` bias case. -/
def midZeroScenarioCnt : ℕ → ℕ := fun k => [7, 9].getD k 0
theorem getD_map_range {β : Type*} (f : ℕ → β) (d : β) {n i : ℕ} (h : i < n) :
    ((List.range n).map f).getD i d = f i := by
  rw [List.getD_eq_getElem?_getD, List.getElem?_map, List.getElem?_range h]
  rfl

theorem floor_le_pyRound {α : Type*} [LinearOrderedField α] [FloorRing α] (x : α) :
    ⌊x⌋ ≤ pyRound x := by
  unfold pyRound
  split_ifs <;> omega

theorem pyRound_le_floor_add_one {α : Type*} [LinearOrderedField α] [FloorRing α]
    (x : α) : pyRound x ≤ ⌊x⌋ + 1 := by
  unfold pyRound
  split_ifs <;> omega

theorem pyRound_intCast {α : Type*} [LinearOrderedField α] [FloorRing α] (k : ℤ) :
    pyRound ((k : ℤ) : α) = k := by
  unfold pyRound
  rw [Int.floor_intCast]
  rw [if_pos (by norm_num)]

theorem pyRound_eq_floor_branch {α : Type*} [LinearOrderedField α] [FloorRing α]
    {x : α} {k : ℤ} (h1 : (k : α) ≤ x) (h2 : x < (k : α) + 1 / 2) :
    pyRound x = k := by
  have hf : ⌊x⌋ = k := by
    rw [Int.floor_eq_iff]
    constructor
    · exact_mod_cast h1
    · calc x < (k : α) + 1 / 2 := h2
        _ < (k : α) + 1 := by linarith
  unfold pyRound
  rw [hf, if_pos (by linarith)]

theorem pyRound_eq_add_one_branch {α : Type*} [LinearOrderedField α] [FloorRing α]
    {x : α} {k : ℤ} (h1 : (k : α) + 1 / 2 < x) (h2 : x < (k : α) + 1) :
    pyRound x = k + 1 := by
  have hf : ⌊x⌋ = k := by
    rw [Int.floor_eq_iff]
    constructor
    · calc (k : α) ≤ (k : α) + 1 / 2 := by linarith
        _ ≤ x := le_of_lt h1
    · exact_mod_cast h2
  unfold pyRound
  rw [hf, if_neg (by linarith), if_pos (by linarith)]

theorem pyRound_mono {α : Type*} [LinearOrderedField α] [FloorRing α]
    {x y : α} (h : x ≤ y) : pyRound x ≤ pyRound y := by
  rcases lt_or_le ⌊x⌋ ⌊y⌋ with hf | hf
  · calc pyRound x ≤ ⌊x⌋ + 1 := pyRound_le_floor_add_one x
      _ ≤ ⌊y⌋ := by omega
      _ ≤ pyRound y := floor_le_pyRound y
  · have hfe : ⌊x⌋ = ⌊y⌋ := le_antisymm (Int.floor_le_floor h) hf
    unfold pyRound
    rw [hfe]
    split_ifs <;> first | omega | linarith
theorem clampedCounts_getD (n : ℕ) (cnt : ℕ → ℕ) {i : ℕ} (h : i < n) :
    (clampedCounts n cnt).getD i 0 = max (cnt i) 1 :=
  getD_map_range _ _ h

theorem cal_popular_log_eq (lcnt n : ℕ) (cnt : ℕ → ℕ) :
    cal_popular_label "log" lcnt n cnt
      = (List.range n).map fun i => pyRound (Real.log ((max (cnt i) 1 : ℕ) : ℝ)) := by
  unfold cal_popular_label
  refine List.map_congr_left fun i hi => ?_
  rw [if_neg (by decide), if_neg (by decide),
    clampedCounts_getD n cnt (List.mem_range.mp hi)]

theorem cal_popular_avg_eq (lcnt n : ℕ) (cnt : ℕ → ℕ) :
    cal_popular_label "avg" lcnt n cnt
      = (List.range n).map fun i =>
          pyRound ((lcnt * (max (cnt i) 1) : ℚ) / max_pop (clampedCounts n cnt)) := by
  unfold cal_popular_label
  refine List.map_congr_left fun i hi => ?_
  rw [if_pos rfl, clampedCounts_getD n cnt (List.mem_range.mp hi)]

theorem cal_popular_arg_eq (lcnt n : ℕ) (cnt : ℕ → ℕ) :
    cal_popular_label "arg" lcnt n cnt
      = (List.range n).map fun i =>
          pyRound ((lcnt * (argsort (clampedCounts n cnt)).getD i 0 : ℚ)
            / (argsort (clampedCounts n cnt)).length) := by
  unfold cal_popular_label
  refine List.map_congr_left fun i hi => ?_
  rw [if_neg (by decide), if_pos rfl]

theorem le_max_pop {l : List ℕ} {v : ℕ} (h : v ∈ l) : v ≤ max_pop l := by
  induction l with
  | nil => cases h
  | cons a t ih =>
    rcases List.mem_cons.mp h with h1 | h1
    · subst h1; exact le_max_left _ _
    · exact le_trans (ih h1) (le_max_right _ _)

theorem one_le_max_pop_clamped {n : ℕ} (hn : 1 ≤ n) (cnt : ℕ → ℕ) :
    1 ≤ max_pop (clampedCounts n cnt) := by
  have hmem : max (cnt 0) 1 ∈ clampedCounts n cnt := by
    unfold clampedCounts
    exact List.mem_map.mpr ⟨0, List.mem_range.mpr hn, rfl⟩
  exact le_trans (le_max_right _ _) (le_max_pop hmem)
theorem exp_one_pow_lt (k : ℕ) (hk : k ≠ 0) :
    Real.exp 1 ^ k < 2.7182818286 ^ k :=
  pow_lt_pow_left₀ Real.exp_one_lt_d9 (Real.exp_pos 1).le hk

theorem lt_exp_one_pow (k : ℕ) (hk : k ≠ 0) :
    (2.7182818283 : ℝ) ^ k < Real.exp 1 ^ k :=
  pow_lt_pow_left₀ Real.exp_one_gt_d9 (by norm_num) hk

theorem pyRound_log_one : pyRound (Real.log ((1 : ℕ) : ℝ)) = 0 := by
  rw [Nat.cast_one, Real.log_one]
  have h := pyRound_intCast (α := ℝ) 0
  simpa using h

theorem pyRound_log_two : pyRound (Real.log ((2 : ℕ) : ℝ)) = 1 := by
  have h1 : ((0 : ℤ) : ℝ) + 1 / 2 < Real.log 2 := by
    rw [show ((0 : ℤ) : ℝ) + 1 / 2 = 1 / 2 by norm_num,
      Real.lt_log_iff_exp_lt (by norm_num)]
    have hsq : Real.exp (1 / 2) ^ 2 < 2 ^ 2 := by
      rw [← Real.exp_nat_mul]
      calc Real.exp ((2 : ℕ) * (1 / 2 : ℝ)) = Real.exp 1 := by norm_num
        _ < 2.7182818286 := Real.exp_one_lt_d9
        _ < 2 ^ 2 := by norm_num
    exact lt_of_pow_lt_pow_left₀ 2 (by norm_num) hsq
  have h2 : Real.log 2 < ((0 : ℤ) : ℝ) + 1 := by
    rw [show ((0 : ℤ) : ℝ) + 1 = 1 by norm_num,
      Real.log_lt_iff_lt_exp (by norm_num)]
    calc (2 : ℝ) < 2.7182818283 := by norm_num
      _ < Real.exp 1 := Real.exp_one_gt_d9
  have h := pyRound_eq_add_one_branch h1 h2
  simpa using h

theorem pyRound_log_five : pyRound (Real.log ((5 : ℕ) : ℝ)) = 2 := by
  have h1 : ((1 : ℤ) : ℝ) + 1 / 2 < Real.log 5 := by
    rw [show ((1 : ℤ) : ℝ) + 1 / 2 = 3 / 2 by norm_num,
      Real.lt_log_iff_exp_lt (by norm_num)]
    have hsq : Real.exp (3 / 2) ^ 2 < 5 ^ 2 := by
      rw [← Real.exp_nat_mul]
      calc Real.exp ((2 : ℕ) * (3 / 2 : ℝ)) = Real.exp ((3 : ℕ) * (1 : ℝ)) := by
            norm_num
        _ = Real.exp 1 ^ 3 := Real.exp_nat_mul 1 3
        _ < 2.7182818286 ^ 3 := exp_one_pow_lt 3 (by norm_num)
        _ < 5 ^ 2 := by norm_num
    exact lt_of_pow_lt_pow_left₀ 2 (by norm_num) hsq
  have h2 : Real.log 5 < ((1 : ℤ) : ℝ) + 1 := by
    rw [show ((1 : ℤ) : ℝ) + 1 = 2 by norm_num,
      Real.log_lt_iff_lt_exp (by norm_num)]
    calc (5 : ℝ) < 2.7182818283 ^ 2 := by norm_num
      _ < Real.exp 1 ^ 2 := lt_exp_one_pow 2 (by norm_num)
      _ = Real.exp ((2 : ℕ) * (1 : ℝ)) := (Real.exp_nat_mul 1 2).symm
      _ = Real.exp 2 := by norm_num
  have h := pyRound_eq_add_one_branch h1 h2
  have hc : ((5 : ℕ) : ℝ) = 5 := by norm_num
  rw [hc, h]
  norm_num

theorem pyRound_log_ten : pyRound (Real.log ((10 : ℕ) : ℝ)) = 2 := by
  have h1 : ((2 : ℤ) : ℝ) ≤ Real.log 10 := by
    rw [show ((2 : ℤ) : ℝ) = 2 by norm_num,
      Real.le_log_iff_exp_le (by norm_num)]
    have hlt : Real.exp 2 < 10 := by
      calc Real.exp 2 = Real.exp ((2 : ℕ) * (1 : ℝ)) := by norm_num
        _ = Real.exp 1 ^ 2 := Real.exp_nat_mul 1 2
        _ < 2.7182818286 ^ 2 := exp_one_pow_lt 2 (by norm_num)
        _ < 10 := by norm_num
    exact le_of_lt hlt
  have h2 : Real.log 10 < ((2 : ℤ) : ℝ) + 1 / 2 := by
    rw [show ((2 : ℤ) : ℝ) + 1 / 2 = 5 / 2 by norm_num,
      Real.log_lt_iff_lt_exp (by norm_num)]
    have hsq : (10 : ℝ) ^ 2 < Real.exp (5 / 2) ^ 2 := by
      rw [← Real.exp_nat_mul]
      calc (10 : ℝ) ^ 2 < 2.7182818283 ^ 5 := by norm_num
        _ < Real.exp 1 ^ 5 := lt_exp_one_pow 5 (by norm_num)
        _ = Real.exp ((5 : ℕ) * (1 : ℝ)) := (Real.exp_nat_mul 1 5).symm
        _ = Real.exp ((2 : ℕ) * (5 / 2 : ℝ)) := by norm_num
    exact lt_of_pow_lt_pow_left₀ 2 (Real.exp_pos _).le hsq
  have h := pyRound_eq_floor_branch h1 h2
  have hc : ((10 : ℕ) : ℝ) = 10 := by norm_num
  rw [hc, h]
/-- C1: in all three inference contexts — `full_sort_predict`, the
cross-entropy branch of `calculate_loss`, and `predict` against the supplied
target item — the debiased score equals
`raw * user_score[q] * item_score[i] - c * user_score[q] * item_score[i]`. -/
theorem C1_debias_adjustment {d n B : ℕ} (M : SASRecNParams d n)
    (seq_output : Fin B → Fin d → ℝ) (target : Fin B → Fin n)
    (q : Fin B) (i : Fin n) :
    full_sort_predict_scores M seq_output q i
        = adjusted_score_spec (full_sort_raw M seq_output q i)
            (user_score M seq_output q) (item_score M i) M.c
    ∧ ce_logits M seq_output q i
        = adjusted_score_spec (dotProduct (seq_output q) (M.item_embedding i))
            (user_score M seq_output q) (item_score M i) M.c
    ∧ predict_scores M seq_output target q q
        = adjusted_score_spec (dotProduct (seq_output q) (M.item_embedding (target q)))
            (user_score M seq_output q) (item_score M (target q)) M.c :=
  ⟨rfl, rfl, rfl⟩

/-- C4: under the `log` strategy every label is `round(ln(max(count, 1)))`;
on counts `[5, 1, 10, 2]` the labels are `[2, 0, 2, 1]`; the label is
monotone non-decreasing in the count. -/
theorem C4_log_labels (lcnt n : ℕ) (cnt : ℕ → ℕ) :
    (∀ i : ℕ, i < n →
      (cal_popular_label "log" lcnt n cnt).getD i 0
        = pyRound (Real.log ((max (cnt i) 1 : ℕ) : ℝ)))
    ∧ cal_popular_label "log" lcnt 4 logScenarioCnt = [2, 0, 2, 1]
    ∧ (∀ v w : ℕ, v ≤ w →
        pyRound (Real.log ((max v 1 : ℕ) : ℝ))
          ≤ pyRound (Real.log ((max w 1 : ℕ) : ℝ))) := by
  refine ⟨fun i hi => ?_, ?_, fun v w hvw => ?_⟩
  · rw [cal_popular_log_eq]
    exact getD_map_range _ _ hi
  · rw [cal_popular_log_eq]
    rw [show List.range 4 = [0, 1, 2, 3] from rfl]
    simp only [List.map_cons, List.map_nil]
    rw [show max (logScenarioCnt 0) 1 = 5 from rfl,
      show max (logScenarioCnt 1) 1 = 1 from rfl,
      show max (logScenarioCnt 2) 1 = 10 from rfl,
      show max (logScenarioCnt 3) 1 = 2 from rfl,
      pyRound_log_five, pyRound_log_one, pyRound_log_ten, pyRound_log_two]
  · apply pyRound_mono
    apply Real.log_le_log
    · exact_mod_cast Nat.lt_of_lt_of_le Nat.zero_lt_one (le_max_right _ _)
    · exact_mod_cast max_le_max hvw (le_refl 1)

theorem C4_log_labels_witness :
    ((0 < 4 ∧ (3:ℕ) ≤ 5)
    ∧ (cal_popular_label "log" 7 4 logScenarioCnt).getD 0 0
        = pyRound (Real.log ((max (logScenarioCnt 0) 1 : ℕ) : ℝ)))
    ∧ pyRound (Real.log ((max 3 1 : ℕ) : ℝ))
        ≤ pyRound (Real.log ((max 5 1 : ℕ) : ℝ)) :=
  ⟨⟨⟨by norm_num, by norm_num⟩,
    (C4_log_labels 7 4 logScenarioCnt).1 0 (by norm_num)⟩,
   (C4_log_labels 7 4 logScenarioCnt).2.2 3 5 (by norm_num)⟩
/-- C5: under the `avg` strategy the label is monotone non-decreasing in the
clamped count, and an item whose clamped count attains the maximum receives
label exactly `bucket_count`. -/
theorem C5_avg_monotone_max (lcnt n : ℕ) (cnt : ℕ → ℕ) (i j : ℕ)
    (hn : 1 ≤ n) (hi : i < n) (hj : j < n) :
    (max (cnt i) 1 ≤ max (cnt j) 1 →
      (cal_popular_label "avg" lcnt n cnt).getD i 0
        ≤ (cal_popular_label "avg" lcnt n cnt).getD j 0)
    ∧ (max (cnt i) 1 = max_pop (clampedCounts n cnt) →
      (cal_popular_label "avg" lcnt n cnt).getD i 0 = (lcnt : ℤ)) := by
  have hmp : 1 ≤ max_pop (clampedCounts n cnt) := one_le_max_pop_clamped hn cnt
  have hmpq : (0 : ℚ) < (max_pop (clampedCounts n cnt) : ℚ) := by exact_mod_cast hmp
  constructor
  · intro hle
    rw [cal_popular_avg_eq, getD_map_range _ _ hi, getD_map_range _ _ hj]
    apply pyRound_mono
    have hc : ((max (cnt i) 1 : ℕ) : ℚ) ≤ ((max (cnt j) 1 : ℕ) : ℚ) := by
      exact_mod_cast hle
    gcongr
  · intro heq
    rw [cal_popular_avg_eq, getD_map_range _ _ hi, heq]
    rw [mul_div_assoc, div_self (ne_of_gt hmpq), mul_one]
    rw [show ((lcnt : ℕ) : ℚ) = ((lcnt : ℤ) : ℚ) by push_cast; ring]
    exact pyRound_intCast lcnt

theorem C5_avg_monotone_max_witness :
    ((1 ≤ 3 ∧ max (avgScenarioCnt 0) 1 ≤ max (avgScenarioCnt 2) 1
        ∧ max (avgScenarioCnt 2) 1 = max_pop (clampedCounts 3 avgScenarioCnt))
    ∧ (cal_popular_label "avg" 10 3 avgScenarioCnt).getD 0 0
        ≤ (cal_popular_label "avg" 10 3 avgScenarioCnt).getD 2 0)
    ∧ (cal_popular_label "avg" 10 3 avgScenarioCnt).getD 2 0 = (10 : ℤ) :=
  ⟨⟨⟨by norm_num, by decide, by decide⟩,
    (C5_avg_monotone_max 10 3 avgScenarioCnt 0 2 (by norm_num) (by norm_num)
      (by norm_num)).1 (by decide)⟩,
   (C5_avg_monotone_max 10 3 avgScenarioCnt 2 2 (by norm_num) (by norm_num)
      (by norm_num)).2 (by decide)⟩
theorem clampedCounts_clamp_self (n : ℕ) (cnt : ℕ → ℕ) :
    clampedCounts n (fun k => max (cnt k) 1) = clampedCounts n cnt := by
  unfold clampedCounts
  refine List.map_congr_left fun k _ => ?_
  exact max_eq_left (le_max_right _ 1)

theorem cal_popular_label_congr (strat : String) (lcnt n : ℕ)
    {c1 c2 : ℕ → ℕ} (h : clampedCounts n c1 = clampedCounts n c2) :
    cal_popular_label strat lcnt n c1 = cal_popular_label strat lcnt n c2 := by
  unfold cal_popular_label
  rw [h]

theorem calcualte_bias_label_congr (n mid_i : ℕ)
    {c1 c2 : ℕ → ℕ} (h : clampedCounts n c1 = clampedCounts n c2) :
    calcualte_bias_label n c1 mid_i = calcualte_bias_label n c2 mid_i := by
  unfold calcualte_bias_label bias_line nobias_line bias_sorted
  rw [h]
  congr 1
  refine List.map_congr_left fun i hi => ?_
  have h1 := clampedCounts_getD n c1 (List.mem_range.mp hi)
  have h2 := clampedCounts_getD n c2 (List.mem_range.mp hi)
  rw [← h1, ← h2, h]

/-- C6: every entry of the clamped count list is at least 1, and both the
popularity-label computation and the bias-partition computation depend on
the raw counts only through their clamped values (a zero count is replaced
by 1 before any formula is applied). -/
theorem C6_counts_clamped (n : ℕ) (cnt : ℕ → ℕ) (strat : String)
    (lcnt mid_i : ℕ) :
    (∀ v ∈ clampedCounts n cnt, 1 ≤ v)
    ∧ cal_popular_label strat lcnt n cnt
        = cal_popular_label strat lcnt n (fun k => max (cnt k) 1)
    ∧ calcualte_bias_label n cnt mid_i
        = calcualte_bias_label n (fun k => max (cnt k) 1) mid_i := by
  refine ⟨fun v hv => ?_, ?_, ?_⟩
  · rcases List.mem_map.mp hv with ⟨k, _, hk⟩
    rw [← hk]
    exact le_max_right _ 1
  · exact (cal_popular_label_congr strat lcnt n (clampedCounts_clamp_self n cnt)).symm
  · exact (calcualte_bias_label_congr n mid_i (clampedCounts_clamp_self n cnt)).symm

theorem C6_counts_clamped_witness :
    ((1 : ℕ) ∈ clampedCounts 2 (fun _ => 0) ∧ 1 ≤ (1 : ℕ))
    ∧ cal_popular_label "avg" 3 2 (fun _ => 0)
        = cal_popular_label "avg" 3 2 (fun _ => max 0 1)
    ∧ calcualte_bias_label 2 (fun _ => 0) 0
        = calcualte_bias_label 2 (fun _ => max 0 1) 0 :=
  ⟨⟨by decide, (C6_counts_clamped 2 (fun _ => 0) "avg" 3 0).1 1 (by decide)⟩,
   (C6_counts_clamped 2 (fun _ => 0) "avg" 3 0).2.1,
   (C6_counts_clamped 2 (fun _ => 0) "avg" 3 0).2.2⟩
/-- C7: constructing `SASRecN` with loss type `"BPR"` or `"CE"` succeeds in
selecting a loss function, and any other loss-type string makes construction
fail with an error, so no instance is produced. -/
theorem C7_loss_type_dispatch (s : String) :
    init_sasrecn "BPR" = Except.ok ⟨LossFct.bpr, []⟩
    ∧ init_sasrecn "CE" = Except.ok ⟨LossFct.ce, []⟩
    ∧ (s ≠ "BPR" → s ≠ "CE" →
        init_sasrecn s = Except.error "Make sure loss_type is BPR or CE!") := by
  refine ⟨rfl, rfl, fun h1 h2 => ?_⟩
  unfold init_sasrecn selectLossFct
  rw [if_neg h1, if_neg h2]

theorem C7_loss_type_dispatch_witness :
    ("MSE" ≠ "BPR" ∧ "MSE" ≠ "CE")
    ∧ init_sasrecn "MSE" = Except.error "Make sure loss_type is BPR or CE!" :=
  ⟨⟨by decide, by decide⟩,
   (C7_loss_type_dispatch "MSE").2.2 (by decide) (by decide)⟩

/-- C8: `full_sort_predict` appends exactly one entry per query of the batch
(the sum of the popularity labels of that query's top-10 scored items) to
`self.pop_label`, and no model operation shortens the accumulator, so its
length never decreases across a model's lifetime. -/
theorem C8_pop_label_accumulator (n B : ℕ) (scores : Fin B → Fin n → ℚ)
    (st : ModelState) :
    applyOp (ModelOp.fullSortPredict n B scores) st
        = ⟨st.label,
           st.pop_label ++ List.ofFn fun q : Fin B => mypop st.label (scores q)⟩
    ∧ (applyOp (ModelOp.fullSortPredict n B scores) st).pop_label.length
        = st.pop_label.length + B
    ∧ ∀ (op : ModelOp) (st2 : ModelState),
        st2.pop_label.length ≤ (applyOp op st2).pop_label.length := by
  refine ⟨rfl, ?_, fun op st2 => ?_⟩
  · show (st.pop_label ++ List.ofFn fun q : Fin B => mypop st.label (scores q)).length
        = st.pop_label.length + B
    rw [List.length_append, List.length_ofFn]
  · cases op <;> simp [applyOp]

/-- C10: `cal_curr_pop` divides by `len(self.pop_label)` and fails when the
accumulator is empty; it is well-defined as soon as a `full_sort_predict`
call with a non-empty batch has appended to the accumulator. -/
theorem C10_cal_curr_pop_empty (label pop : List ℤ) (n B : ℕ)
    (scores : Fin B → Fin n → ℚ) :
    cal_curr_pop label [] = none
    ∧ (label ≠ [] → pop ≠ [] →
        cal_curr_pop label pop
          = some ((pop.sum : ℚ) / 10 / (pop.length : ℚ)))
    ∧ (label ≠ [] → 1 ≤ B →
        (cal_curr_pop label
            ((applyOp (ModelOp.fullSortPredict n B scores)
              ⟨label, []⟩).pop_label)).isSome = true) := by
  refine ⟨rfl, fun h1 h2 => ?_, fun h1 hB => ?_⟩
  · unfold cal_curr_pop
    rw [if_neg (by simpa using h2), if_neg (by simpa using h1)]
  · show (cal_curr_pop label
        ([] ++ List.ofFn fun q : Fin B => mypop label (scores q))).isSome = true
    unfold cal_curr_pop
    rw [if_neg, if_neg (by simpa using h1)]
    · rfl
    · rw [List.nil_append, List.length_ofFn]
      omega

theorem C10_cal_curr_pop_empty_witness :
    (([1] : List ℤ) ≠ [] ∧ ([2, 3] : List ℤ) ≠ [])
    ∧ cal_curr_pop [1] [2, 3]
        = some ((([2, 3] : List ℤ).sum : ℚ) / 10 / ((([2, 3] : List ℤ).length : ℕ) : ℚ)) :=
  ⟨⟨by decide, by decide⟩,
   (C10_cal_curr_pop_empty [1] [2, 3] 1 1 (fun _ _ => 0)).2.1 (by decide) (by decide)⟩
/-- C3 counterexample: with counts `[1,2,3,4,5]` and `mid_i = 2` the claim
says the item with count 3 (index 2) is excluded from both partitions; in
fact `calcualte_bias_label` gives it bias label 0 (because
`nobias_line = bias_bak[2] = 3`, the third-smallest count). -/
theorem C3_count_three_not_excluded :
    (2, (0 : ℤ)) ∈ calcualte_bias_label 5 biasScenarioCnt 2
    ∧ (2 : ℕ) ∈ (calcualte_bias_label 5 biasScenarioCnt 2).map Prod.fst := by
  decide

/-- C3 amended: with counts `[1,2,3,4,5]` and `mid_i = 2`,
`calcualte_bias_label` assigns bias label 1 exactly to the items with count
in `{4,5}` and bias label 0 exactly to the items with count in `{1,2,3}`
(`bias_line = 4`, `nobias_line = bias_bak[2] = 3`); no item is excluded. -/
theorem C3_bias_partition_scenario :
    calcualte_bias_label 5 biasScenarioCnt 2
        = [(0, 0), (1, 0), (2, 0), (3, 1), (4, 1)]
    ∧ bias_line 5 biasScenarioCnt 2 = 4
    ∧ nobias_line 5 biasScenarioCnt 2 = 3 := by
  decide

theorem biasLoop_all_ge (bl nl mid_i : ℕ) (l : List (ℕ × ℕ)) (nc : ℕ)
    (h : ∀ p ∈ l, bl ≤ p.2) :
    biasLoop bl nl mid_i l nc = l.map fun p => (p.1, (1 : ℤ)) := by
  induction l generalizing nc with
  | nil => rfl
  | cons p rest ih =>
    unfold biasLoop
    rw [if_pos (h p (List.mem_cons_self p rest))]
    rw [ih nc fun q hq => h q (List.mem_cons_of_mem p hq)]
    rfl

theorem bias_sorted_head_le (n : ℕ) (cnt : ℕ → ℕ) {v : ℕ}
    (hv : v ∈ clampedCounts n cnt) :
    (bias_sorted n cnt).getD 0 0 ≤ v := by
  have hperm : (bias_sorted n cnt).Perm (clampedCounts n cnt) :=
    List.perm_insertionSort _ _
  have hsorted : List.Sorted (· ≤ ·) (bias_sorted n cnt) :=
    List.sorted_insertionSort _ _
  have hmem : v ∈ bias_sorted n cnt := (hperm.mem_iff).mpr hv
  cases hs : bias_sorted n cnt with
  | nil =>
    rw [hs] at hmem
    cases hmem
  | cons x t =>
    rw [hs] at hmem
    rw [hs] at hsorted
    show x ≤ v
    rcases List.mem_cons.mp hmem with h1 | h1
    · rw [h1]
    · exact List.rel_of_sorted_cons hsorted v h1

/-- C9: when `mid_i = int(n_items * b_ratio) = 0`, `bias_bak[-0]` is
`bias_bak[0]`, the smallest clamped count, so every item passes the
`v >= bias_line` test: all `n_items` items receive bias label 1 and the
label-0 partition is empty. -/
theorem C9_mid_zero_all_biased (n : ℕ) (cnt : ℕ → ℕ) :
    bias_line n cnt 0 = (bias_sorted n cnt).getD 0 0
    ∧ (calcualte_bias_label n cnt 0).map Prod.snd = List.replicate n 1
    ∧ (calcualte_bias_label n cnt 0).map Prod.fst = List.range n := by
  have hbl : bias_line n cnt 0 = (bias_sorted n cnt).getD 0 0 := by
    unfold bias_line
    rw [Nat.sub_zero, Nat.mod_self]
  have hall : ∀ p ∈ (List.range n).map (fun i => (i, max (cnt i) 1)),
      bias_line n cnt 0 ≤ p.2 := by
    intro p hp
    rcases List.mem_map.mp hp with ⟨i, hi, hip⟩
    rw [← hip]
    show bias_line n cnt 0 ≤ max (cnt i) 1
    rw [hbl]
    exact bias_sorted_head_le n cnt (List.mem_map.mpr ⟨i, hi, rfl⟩)
  have hloop : calcualte_bias_label n cnt 0
      = ((List.range n).map fun i => (i, max (cnt i) 1)).map
          fun p => (p.1, (1 : ℤ)) := by
    unfold calcualte_bias_label
    exact biasLoop_all_ge _ _ _ _ _ hall
  refine ⟨hbl, ?_, ?_⟩
  · rw [hloop]
    simp only [List.map_map]
    trans List.map (fun _ => (1 : ℤ)) (List.range n)
    · exact List.map_congr_left fun i _ => rfl
    · simp
  · rw [hloop]
    simp only [List.map_map]
    trans List.map (fun i => i) (List.range n)
    · exact List.map_congr_left fun i _ => rfl
    · simp
theorem orderedInsert_congr {α : Type*} (r s : α → α → Prop)
    [DecidableRel r] [DecidableRel s] (P : α → Prop)
    (hrs : ∀ a b, P a → P b → (r a b ↔ s a b)) (a : α) (ha : P a) :
    ∀ (l : List α), (∀ b ∈ l, P b) →
      l.orderedInsert r a = l.orderedInsert s a
  | [], _ => rfl
  | b :: t, hl => by
    show (if r a b then a :: b :: t else b :: t.orderedInsert r a)
        = (if s a b then a :: b :: t else b :: t.orderedInsert s a)
    by_cases hr : r a b
    · rw [if_pos hr,
        if_pos ((hrs a b ha (hl b (List.mem_cons_self b t))).mp hr)]
    · rw [if_neg hr,
        if_neg (fun hs =>
          hr ((hrs a b ha (hl b (List.mem_cons_self b t))).mpr hs)),
        orderedInsert_congr r s P hrs a ha t
          (fun c hc => hl c (List.mem_cons_of_mem b hc))]

theorem insertionSort_congr {α : Type*} (r s : α → α → Prop)
    [DecidableRel r] [DecidableRel s] (P : α → Prop)
    (hrs : ∀ a b, P a → P b → (r a b ↔ s a b)) :
    ∀ (l : List α), (∀ b ∈ l, P b) →
      List.insertionSort r l = List.insertionSort s l
  | [], _ => rfl
  | a :: t, hl => by
    show (List.insertionSort r t).orderedInsert r a
        = (List.insertionSort s t).orderedInsert s a
    rw [insertionSort_congr r s P hrs t
      (fun c hc => hl c (List.mem_cons_of_mem a hc))]
    exact orderedInsert_congr r s P hrs a (hl a (List.mem_cons_self a t)) _
      (fun c hc => hl c (List.mem_cons_of_mem a
        ((List.perm_insertionSort s t).mem_iff.mp hc)))

theorem clampedCounts_length (n : ℕ) (cnt : ℕ → ℕ) :
    (clampedCounts n cnt).length = n := by
  unfold clampedCounts
  rw [List.length_map, List.length_range]

theorem argsort_length (l : List ℕ) : (argsort l).length = l.length := by
  unfold argsort
  rw [(List.perm_insertionSort (keyLe l) (List.range l.length)).length_eq,
    List.length_range]

theorem argsort_congr {l1 l2 : List ℕ} (hlen : l1.length = l2.length)
    (h : ∀ i j, i < l1.length → j < l1.length →
      (l1.getD i 0 ≤ l1.getD j 0 ↔ l2.getD i 0 ≤ l2.getD j 0)) :
    argsort l1 = argsort l2 := by
  unfold argsort
  rw [← hlen]
  refine insertionSort_congr (keyLe l1) (keyLe l2) (fun i => i < l1.length)
    (fun i j hi hj => ?_) (List.range l1.length)
    (fun b hb => List.mem_range.mp hb)
  have e1 : (l1.getD i 0 < l1.getD j 0) ↔ (l2.getD i 0 < l2.getD j 0) := by
    rw [lt_iff_not_le, lt_iff_not_le, h j i hj hi]
  have e2 : (l1.getD i 0 = l1.getD j 0) ↔ (l2.getD i 0 = l2.getD j 0) := by
    rw [le_antisymm_iff, le_antisymm_iff, h i j hi hj, h j i hj hi]
  unfold keyLe
  rw [e1, e2]

/-- C2 counterexample: with clamped counts `[3, 1, 2]` and `bucket_count = 3`
the code's `arg` labels are `[1, 2, 0]` (it reads `lidx[i]`, the argsort),
while `round(bucket_count * rank(i) / num_items)` gives `[2, 0, 1]`; item 0
gets label 1 from the code but 2 from the claimed formula. -/
theorem C2_arg_rank_counterexample :
    cal_popular_label "arg" 3 3 argScenarioCnt ≠ spec_arg_label 3 3 argScenarioCnt
    ∧ (cal_popular_label "arg" 3 3 argScenarioCnt).getD 0 0 = 1
    ∧ (spec_arg_label 3 3 argScenarioCnt).getD 0 0 = 2 := by
  have h1 : cal_popular_label "arg" 3 3 argScenarioCnt = [1, 2, 0] := by
    norm_num [cal_popular_label, clampedCounts, argsort, keyLe, max_pop,
      List.insertionSort, List.orderedInsert, argScenarioCnt, List.range_succ,
      pyRound]
    decide
  have h2 : spec_arg_label 3 3 argScenarioCnt = [2, 0, 1] := by
    norm_num [spec_arg_label, clampedCounts, argsort, keyLe,
      List.insertionSort, List.orderedInsert, argScenarioCnt, List.range_succ,
      pyRound]
  rw [h1, h2]
  refine ⟨by decide, rfl, rfl⟩

/-- C2 amended: under the `arg` strategy the label of item `i` is
`round(bucket_count * lidx[i] / num_items)` where `lidx = argsort(clamped
counts)` — `lidx[i]` is the index of the item occupying position `i` of the
ascending sort (the inverse of the rank permutation), not item `i`'s rank —
and the labels still depend only on the relative order of the clamped
counts: two count vectors with identical rank order yield identical labels. -/
theorem C2_arg_labels_argsort (lcnt n : ℕ) (cnt cnt2 : ℕ → ℕ) :
    (∀ i : ℕ, i < n →
      (cal_popular_label "arg" lcnt n cnt).getD i 0
        = pyRound ((lcnt * (argsort (clampedCounts n cnt)).getD i 0 : ℚ) / n))
    ∧ ((∀ i : ℕ, i < n → ∀ j : ℕ, j < n →
          (max (cnt i) 1 ≤ max (cnt j) 1 ↔ max (cnt2 i) 1 ≤ max (cnt2 j) 1)) →
        cal_popular_label "arg" lcnt n cnt = cal_popular_label "arg" lcnt n cnt2) := by
  constructor
  · intro i hi
    rw [cal_popular_arg_eq, getD_map_range _ _ hi, argsort_length,
      clampedCounts_length]
  · intro hord
    have hse : argsort (clampedCounts n cnt) = argsort (clampedCounts n cnt2) := by
      refine argsort_congr ?_ ?_
      · rw [clampedCounts_length, clampedCounts_length]
      · intro i j hi hj
        rw [clampedCounts_length] at hi hj
        rw [clampedCounts_getD n cnt hi, clampedCounts_getD n cnt hj,
          clampedCounts_getD n cnt2 hi, clampedCounts_getD n cnt2 hj]
        exact hord i hi j hj
    rw [cal_popular_arg_eq, cal_popular_arg_eq, hse]

theorem C2_arg_labels_argsort_witness :
    ((0 < 3)
    ∧ (cal_popular_label "arg" 3 3 argScenarioCnt).getD 0 0
        = pyRound ((3 * (argsort (clampedCounts 3 argScenarioCnt)).getD 0 0 : ℚ) / 3))
    ∧ cal_popular_label "arg" 3 3 argScenarioCnt
        = cal_popular_label "arg" 3 3 argScenarioCnt2 :=
  ⟨⟨by norm_num,
    (C2_arg_labels_argsort 3 3 argScenarioCnt argScenarioCnt2).1 0 (by norm_num)⟩,
   (C2_arg_labels_argsort 3 3 argScenarioCnt argScenarioCnt2).2 (by decide)⟩
